import Mathlib

/-!
Verification of the go-sknn spatial index.  The development embeds the
top-level adaptive variant (knn.go together with the adaptive Node file) and
the v3 fixed-depth variant (v3/knn.go together with its Node file, needed for
pruning).  Nodes live in an arena (`KNNState.nodes`), with arena indices
playing the role of Go pointers, so that the lookup map's node references and
their staleness are modelled faithfully.

Cell geometry follows the interface the spec isolates (§4.1/§6.1): a cell is
the path of child choices from the level-0 root sentinel, `level` is the path
length, `parent l` keeps the first `l` steps, and `cellAt` returns a cell at
the maximum level 30.  Distances are rationals; only their ordering is
load-bearing.  Recursive operations carry a fuel argument; `none` marks the
recursion artifact, and every terminating Go run is the `some` result for
every large enough fuel.
-/

namespace GoSknn

/-- Bound maxValuesPerCell = 8 from the adaptive Node file. -/
def maxValuesPerCell : Nat := 8

/-- CellID in the spec's interface: the path of child choices from the
level-0 root sentinel; `level` is the length and `parent l` is `take l`. -/
abbrev Cell := List Nat

/-- Value[T]: a keyed payload together with the maximum-level cell of its
location. -/
structure Val (α : Type) where
  key : String
  value : α
  cell : Cell
  deriving DecidableEq

/-- Node[T] of the adaptive variant: cellID, values, children (arena ids),
parent back-reference and the copied maxIndexDepth. -/
structure NodeRec (α : Type) where
  cellID : Cell
  values : List (Val α)
  children : List Nat
  parent : Option Nat
  maxIndexDepth : Int
  deriving DecidableEq

instance {α : Type} : Inhabited (NodeRec α) :=
  ⟨{ cellID := [], values := [], children := [], parent := none, maxIndexDepth := 0 }⟩

/-- KNN[T]: the arena of nodes (indexRoot is id 0), the configured precision
and the key-to-node lookup map (an association list read through
`lookupFind`). -/
structure KNNState (α : Type) where
  nodes : List (NodeRec α)
  precision : Int
  lookup : List (String × Nat)
  deriving DecidableEq

/-- Read a node from the arena (a Go pointer dereference). -/
def getNode {α : Type} (s : KNNState α) (i : Nat) : NodeRec α := s.nodes.getD i default

/-- Replace the i-th entry of a list by the image under f. -/
def listModify {β : Type _} : List β → Nat → (β → β) → List β
  | [], _, _ => []
  | x :: xs, 0, f => f x :: xs
  | x :: xs, n+1, f => x :: listModify xs n f

/-- Update one node of the arena in place. -/
def setNodeF {α : Type} (s : KNNState α) (i : Nat) (f : NodeRec α → NodeRec α) : KNNState α :=
  { s with nodes := listModify s.nodes i f }

/-- Read of the Go lookup map. -/
def lookupFind (l : List (String × Nat)) (k : String) : Option Nat :=
  (l.find? (fun e => e.1 == k)).map (·.2)

/-- Write of the Go lookup map (overwrite or append). -/
def lookupSet (l : List (String × Nat)) (k : String) (v : Nat) : List (String × Nat) :=
  if (l.find? (fun e => e.1 == k)).isSome then
    l.map (fun e => if e.1 == k then (k, v) else e)
  else l ++ [(k, v)]

/-- Delete of the Go lookup map. -/
def lookupDel (l : List (String × Nat)) (k : String) : List (String × Nat) :=
  l.filter (fun e => ¬ e.1 == k)

/-- Geometry interface of the spec (§4.1/§6.1): cellAt produces the
maximum-level cell of a coordinate pair, pt the point used for distances and
dist the cell-to-point distance whose ordering is the only load-bearing
property.  Any equivalent spherical cell scheme is substitutable. -/
structure Geo (P : Type) where
  cellAt : ℚ → ℚ → Cell
  pt : ℚ → ℚ → P
  dist : Cell → P → ℚ

/-- Scan of a node's children for a cellID, as GetOrCreateChild does. -/
def findChild {α : Type} (s : KNNState α) (nid : Nat) (c : Cell) : Option Nat :=
  (getNode s nid).children.find? (fun j => (getNode s j).cellID == c)

/-- GetOrCreateChild of the adaptive Node: scan the children for the cellID,
otherwise allocate a fresh child, copying maxIndexDepth and linking the
parent back-reference. -/
def getOrCreateChild {α : Type} (s : KNNState α) (nid : Nat) (c : Cell) : Nat × KNNState α :=
  match findChild s nid c with
  | some j => (j, s)
  | none =>
    let newId := s.nodes.length
    let child : NodeRec α :=
      { cellID := c, values := [], children := [], parent := some nid,
        maxIndexDepth := (getNode s nid).maxIndexDepth }
    let s1 : KNNState α := { s with nodes := s.nodes ++ [child] }
    (newId, setNodeF s1 nid (fun n => { n with children := n.children ++ [newId] }))

/-- Migration loop of the split branch, one existing value at a time,
abstracted over the recursive add (`addF` is the node-level AddValue at the
remaining fuel). -/
def migrateWith {α : Type}
    (addF : KNNState α → Nat → String → α → Cell → Option (Nat × KNNState α)) :
    KNNState α → Nat → Cell → List (Val α) → Option (KNNState α)
  | s, _, _, [] => some s
  | s, nid, cell, w :: ws =>
    let lvl := (getNode s nid).cellID.length
    let pr := getOrCreateChild s nid (w.cell.take (lvl + 1))
    match addF pr.2 pr.1 w.key w.value cell with
    | none => none
    | some r => migrateWith addF r.2 nid cell ws

/-- Node.AddValue of the adaptive variant.  With children present the value
is forwarded to the child at `cell.parent(level+1)`; a leaf appends while
below maxValuesPerCell or at maxIndexDepth, and otherwise splits.  The split
migrates each existing value to the child at `v.cell.parent(level+1)` but
passes `cell` — the new value's cell — to the recursive call, exactly as the
source does. -/
def nodeAddValue {α : Type} : Nat → KNNState α → Nat → String → α → Cell →
    Option (Nat × KNNState α)
  | 0, _, _, _, _, _ => none
  | fuel+1, s, nid, key, v, cell =>
    let n := getNode s nid
    let valueChildCell := cell.take (n.cellID.length + 1)
    if n.children ≠ [] then
      let pr := getOrCreateChild s nid valueChildCell
      nodeAddValue fuel pr.2 pr.1 key v cell
    else if n.values.length + 1 ≤ maxValuesPerCell then
      some (nid, setNodeF s nid (fun m => { m with values := m.values ++ [⟨key, v, cell⟩] }))
    else if (n.cellID.length : Int) ≥ n.maxIndexDepth then
      some (nid, setNodeF s nid (fun m => { m with values := m.values ++ [⟨key, v, cell⟩] }))
    else
      match migrateWith (nodeAddValue fuel) s nid cell n.values with
      | none => none
      | some s1 =>
        let s2 := setNodeF s1 nid (fun m => { m with values := [] })
        let pr := getOrCreateChild s2 nid valueChildCell
        nodeAddValue fuel pr.2 pr.1 key v cell

/-- Node.RemoveValue: find the first value with the key, overwrite it with
the last element and drop the last slot (swap-pop). -/
def nodeRemoveValue {α : Type} (key : String) (n : NodeRec α) : NodeRec α :=
  match n.values.findIdx? (fun w => w.key == key) with
  | none => n
  | some i =>
    match n.values.getLast? with
    | none => n
    | some lastV => { n with values := (n.values.set i lastV).dropLast }

/-- Node.UpdateValue: set the payload of every value whose key matches. -/
def nodeUpdateValue {α : Type} (key : String) (v : α) (n : NodeRec α) : NodeRec α :=
  { n with values := n.values.map (fun w => if w.key == key then { w with value := v } else w) }

/-- MinPrecision constant. -/
def MinPrecision : Int := 0

/-- MaxPrecision constant. -/
def MaxPrecision : Int := 30

/-- NewKNN: validate the precision and build the root-only index.  The root
carries the level-0 sentinel cell and the configured maxIndexDepth. -/
def newKNN (α : Type) (precision : Int) : Except String (KNNState α) :=
  if precision < MinPrecision ∨ precision > MaxPrecision then
    .error ("invalid precision " ++ toString precision ++ ": precision must be between "
      ++ toString MinPrecision ++ " and " ++ toString MaxPrecision)
  else
    .ok { nodes := [{ cellID := [], values := [], children := [], parent := none,
                      maxIndexDepth := precision }],
          precision := precision, lookup := [] }

/-- Pad a natural number with leading zeros to six digits. -/
def pad6 (n : Nat) : String :=
  let s := toString n
  String.mk (List.replicate (6 - s.length) '0') ++ s

/-- Model of Go's %f formatting with six fractional digits (round to
nearest, computed on the numerator and denominator); on the integral
coordinates the validation message is about, the model and %f agree
exactly. -/
def fmt6 (q : ℚ) : String :=
  let a : Nat := q.num.natAbs * 1000000
  let n : Nat := (2 * a + q.den) / (2 * q.den)
  (if q.num < 0 then "-" else "") ++ toString (n / 1000000) ++ "." ++ pad6 (n % 1000000)

/-- Diagnostic the mutators panic with on out-of-range coordinates. -/
def panicMsg (lat long : ℚ) : String :=
  "invalid latitude " ++ fmt6 lat ++ " (Min:-90, Max 90) or longitude " ++ fmt6 long
    ++ " (Min: -180, Max 180)"

/-- KNN.AddValue.  The result is `some (.error (msg, s))` when the source
panics — the state at the moment of the panic is carried in the error — and
`some (.ok s')` on success; `none` is the fuel artifact. -/
def knnAddValue {P α : Type} (g : Geo P) (fuel : Nat) (s : KNNState α) (id : String)
    (v : α) (lat long : ℚ) : Option (Except (String × KNNState α) (KNNState α)) :=
  if long < -180 ∨ long > 180 ∨ lat < -90 ∨ lat > 90 then
    some (.error (panicMsg lat long, s))
  else
    let cellID := g.cellAt lat long
    match nodeAddValue fuel s 0 id v cellID with
    | none => none
    | some (nid, s1) => some (.ok { s1 with lookup := lookupSet s1.lookup id nid })

/-- KNN.RemoveValue: false when the key is unknown; otherwise remove the
value from the node the lookup map names and delete the lookup entry. -/
def knnRemoveValue {α : Type} (s : KNNState α) (id : String) : Bool × KNNState α :=
  match lookupFind s.lookup id with
  | none => (false, s)
  | some nid =>
    (true, { setNodeF s nid (nodeRemoveValue id) with lookup := lookupDel s.lookup id })

/-- State of a sync.RWMutex as seen by one sequential execution. -/
inductive RWLock where
  | unlocked
  | readLocked (n : Nat)
  | writeLocked
  deriving DecidableEq

/-- RLock: acquire a read lock.  Against a held write lock the single
sequential caller would block forever, modelled as none. -/
def rwRLock : RWLock → Option RWLock
  | .unlocked => some (.readLocked 1)
  | .readLocked n => some (.readLocked (n + 1))
  | .writeLocked => none

/-- Unlock: release the *write* lock.  Calling it in any other state — in
particular after RLock — is the unconditional Go runtime fatal
'sync: Unlock of unlocked RWMutex'. -/
def rwUnlock : RWLock → Option RWLock
  | .writeLocked => some .unlocked
  | .unlocked => none
  | .readLocked _ => none

/-- Diagnostic of the runtime fatal raised by sync.RWMutex.Unlock without a
held write lock. -/
def lockFatalMsg : String := "sync: Unlock of unlocked RWMutex"

/-- KNN.UpsertValue (knn.go:78): compute the max-level cell, then read the
lookup map under lookupMutex.RLock — released with Unlock, not RUnlock
(knn.go:83).  Releasing a read-locked RWMutex through Unlock is an
unconditional runtime fatal, carried as an error with the untouched state;
the remaining branches of the source (delegate to AddValue when the id is
absent, update in place when the node's cellID equals the computed cell,
otherwise remove and re-add), translated below, sit past that fatal. -/
def knnUpsertValue {P α : Type} (g : Geo P) (fuel : Nat) (s : KNNState α) (id : String)
    (v : α) (lat long : ℚ) : Option (Except (String × KNNState α) (KNNState α)) :=
  let cellID := g.cellAt lat long
  match rwRLock RWLock.unlocked with
  | none => none
  | some lk =>
    let found := lookupFind s.lookup id
    match rwUnlock lk with
    | none => some (.error (lockFatalMsg, s))
    | some _ =>
      match found with
      | none => knnAddValue g fuel s id v lat long
      | some nid =>
        if (getNode s nid).cellID = cellID then
          some (.ok (setNodeF s nid (nodeUpdateValue id v)))
        else
          let r := knnRemoveValue s id
          knnAddValue g fuel r.2 id v lat long

/-- Elements of the search priority queue: a node (arena id) or a value,
modelling the tagged interface{} queue of the source. -/
abbrev QItem (α : Type) := Sum Nat (Val α)

/-- Pop a minimum-priority element — the first one attaining the minimum —
as the lane MinPriorityQueue does up to tie order (ties are arbitrary but
deterministic per the spec). -/
def pqPop {β : Type _} : List (β × ℚ) → Option ((β × ℚ) × List (β × ℚ))
  | [] => none
  | x :: xs =>
    match pqPop xs with
    | none => some (x, [])
    | some (m, rest) => if x.2 ≤ m.2 then some (x, xs) else some (m, x :: rest)

/-- Loop of KNN.Search: check the context at the top of each iteration, pop
the minimum, push a leaf's values / an internal node's children, and hand
popped values to the callback, stopping when it returns true.  Returns the
values emitted, in emission order; `none` is the fuel artifact. -/
def searchLoop {α : Type} (s : KNNState α) (d : Cell → ℚ) (ctx : Nat → Bool)
    (cb : Val α → Bool) : Nat → Nat → List (QItem α × ℚ) → List (Val α) →
    Option (List (Val α))
  | 0, _, _, _ => none
  | fuel+1, it, q, acc =>
    if ctx it then some acc.reverse
    else
      match pqPop q with
      | none => some acc.reverse
      | some ((item, _), rest) =>
        match item with
        | .inl nid =>
          if (getNode s nid).children = [] then
            searchLoop s d ctx cb fuel (it+1)
              (rest ++ (getNode s nid).values.map (fun w => (.inr w, d w.cell))) acc
          else
            searchLoop s d ctx cb fuel (it+1)
              (rest ++ (getNode s nid).children.map (fun c => (.inl c, d (getNode s c).cellID))) acc
        | .inr w =>
          if cb w then some (w :: acc).reverse
          else searchLoop s d ctx cb fuel (it+1) rest (w :: acc)

/-- KNN.Search (knn.go:138): seed the queue with the root at distance 0 and
run the loop. -/
def knnSearch {P α : Type} (g : Geo P) (fuel : Nat) (ctx : Nat → Bool) (s : KNNState α)
    (lat long : ℚ) (cb : Val α → Bool) : Option (List (Val α)) :=
  let point := g.pt lat long
  searchLoop s (fun c => g.dist c point) ctx cb fuel 0 [(.inl 0, 0)] []

/-- Loop of KNN.SearchApproximate — the source of the two loops is
identical, including the per-value queue entries, so the translation is a
verbatim second copy. -/
def searchLoopA {α : Type} (s : KNNState α) (d : Cell → ℚ) (ctx : Nat → Bool)
    (cb : Val α → Bool) : Nat → Nat → List (QItem α × ℚ) → List (Val α) →
    Option (List (Val α))
  | 0, _, _, _ => none
  | fuel+1, it, q, acc =>
    if ctx it then some acc.reverse
    else
      match pqPop q with
      | none => some acc.reverse
      | some ((item, _), rest) =>
        match item with
        | .inl nid =>
          if (getNode s nid).children = [] then
            searchLoopA s d ctx cb fuel (it+1)
              (rest ++ (getNode s nid).values.map (fun w => (.inr w, d w.cell))) acc
          else
            searchLoopA s d ctx cb fuel (it+1)
              (rest ++ (getNode s nid).children.map (fun c => (.inl c, d (getNode s c).cellID))) acc
        | .inr w =>
          if cb w then some (w :: acc).reverse
          else searchLoopA s d ctx cb fuel (it+1) rest (w :: acc)

/-- KNN.SearchApproximate (knn.go:109). -/
def knnSearchApproximate {P α : Type} (g : Geo P) (fuel : Nat) (ctx : Nat → Bool)
    (s : KNNState α) (lat long : ℚ) (cb : Val α → Bool) : Option (List (Val α)) :=
  let point := g.pt lat long
  searchLoopA s (fun c => g.dist c point) ctx cb fuel 0 [(.inl 0, 0)] []

/-- Toy geometry for the concrete runs: the first step of a cell's path is
the latitude band of the coordinate, and a cell's distance depends only on
its first step — so a cell's distance is a lower bound for the distance of
every descendant cell, as §4.1 requires. -/
def g0 : Geo Unit :=
  { cellAt := fun lat _ =>
      (if lat < 2 then 0 else if lat < 3 then 1 else 2) :: List.replicate 29 0
    pt := fun _ _ => ()
    dist := fun c _ =>
      match c.head? with
      | none => 0
      | some 0 => 10
      | some 1 => 1
      | some _ => 5 }

/-- Successful-state projection of a mutating operation's result. -/
def okStep {α : Type} (r : Option (Except (String × KNNState α) (KNNState α))) :
    Option (KNNState α) :=
  match r with
  | some (.ok s) => some s
  | _ => none

/-- Successful-state projection of the constructor's result. -/
def okNew {α : Type} (r : Except String (KNNState α)) : Option (KNNState α) :=
  match r with
  | .ok s => some s
  | .error _ => none

/-- Add with the toy geometry, in the Option monad of successful steps. -/
def addV (id : String) (v : Int) (lat long : ℚ) (s : KNNState Int) :
    Option (KNNState Int) :=
  okStep (knnAddValue g0 100 s id v lat long)

/-- Concrete scenario that makes the adaptive leaf split: precision 1, eight
values in the latitude band of the first child, then a ninth value in a
second band (this one overflows the root and splits it), then a tenth value
in a third band. -/
def buildSplit : Option (KNNState Int) :=
  (okNew (newKNN Int 1)).bind
    (addV "a1" 1 1 0) |>.bind (addV "a2" 2 1 0) |>.bind (addV "a3" 3 1 0) |>.bind
    (addV "a4" 4 1 0) |>.bind (addV "a5" 5 1 0) |>.bind (addV "a6" 6 1 0) |>.bind
    (addV "a7" 7 1 0) |>.bind (addV "a8" 8 1 0) |>.bind (addV "b" 9 2 0) |>.bind
    (addV "z" 10 3 0)

/-- Concrete two-value state for the upsert claims: precision 1, both values
in the root leaf, same location. -/
def buildPair : Option (KNNState Int) :=
  (okNew (newKNN Int 1)).bind (addV "1" 10 1 0) |>.bind (addV "2" 20 1 0)

/-- Concrete one-value state for the validation claim. -/
def buildOne : Option (KNNState Int) :=
  (okNew (newKNN Int 1)).bind (addV "1" 10 1 0)

/-- Removal of the first child with a given cellID from a children list, as
Node.RemoveChild does. -/
def removeFirstChildA {α : Type} (s : KNNState α) : List Nat → Cell → List Nat
  | [], _ => []
  | j :: rest, c => if (getNode s j).cellID == c then rest else j :: removeFirstChildA s rest c

/-- Node.RemoveChild of the adaptive variant (part_000:180). -/
def nodeRemoveChild {α : Type} (s : KNNState α) (nid : Nat) (c : Cell) : KNNState α :=
  setNodeF s nid (fun n => { n with children := removeFirstChildA s n.children c })

/-- Node.Prune of the adaptive variant (part_000:167): a node removes
*itself* from its parent when it holds no values but does have children;
`none` models the nil-pointer dereference when such a node has no parent
(the root). -/
def nodePruneAdaptive {α : Type} (s : KNNState α) (nid : Nat) : Option (KNNState α) :=
  if ¬ (getNode s nid).values.isEmpty then some s
  else if (getNode s nid).children.isEmpty then some s
  else
    match (getNode s nid).parent with
    | none => none
    | some p =>
      some (setNodeF (nodeRemoveChild s p (getNode s nid).cellID) nid
        (fun n => { n with parent := none }))

/-- Node of the v2/v3 fixed-depth variants (src/node.go): explicit leaf
tag. -/
structure V3Node (α : Type) where
  cellID : Cell
  values : List (Val α)
  children : List Nat
  parent : Option Nat
  isLeaveNode : Bool
  deriving DecidableEq

instance {α : Type} : Inhabited (V3Node α) :=
  ⟨{ cellID := [], values := [], children := [], parent := none, isLeaveNode := false }⟩

/-- KNN of the v3 variant (v3/knn.go). -/
structure V3State (α : Type) where
  nodes : List (V3Node α)
  precision : Int
  lookup : List (String × Nat)
  deriving DecidableEq

/-- Arena read for the v3 variant. -/
def v3GetNode {α : Type} (s : V3State α) (i : Nat) : V3Node α := s.nodes.getD i default

/-- Arena update for the v3 variant. -/
def v3SetNodeF {α : Type} (s : V3State α) (i : Nat) (f : V3Node α → V3Node α) : V3State α :=
  { s with nodes := listModify s.nodes i f }

/-- GetOrCreateChild of src/node.go: scan the children for the cellID,
otherwise allocate a fresh child with the given leaf flag. -/
def v3GetOrCreateChild {α : Type} (s : V3State α) (nid : Nat) (c : Cell)
    (isLeave : Bool) : Nat × V3State α :=
  match (v3GetNode s nid).children.find? (fun j => (v3GetNode s j).cellID == c) with
  | some j => (j, s)
  | none =>
    let newId := s.nodes.length
    let child : V3Node α :=
      { cellID := c, values := [], children := [], parent := some nid, isLeaveNode := isLeave }
    let s1 : V3State α := { s with nodes := s.nodes ++ [child] }
    (newId, v3SetNodeF s1 nid (fun n => { n with children := n.children ++ [newId] }))

/-- NewKNN of the v3 variant: same validation, zero-value root. -/
def v3NewKNN (α : Type) (precision : Int) : Except String (V3State α) :=
  if precision < MinPrecision ∨ precision > MaxPrecision then
    .error ("invalid precision " ++ toString precision ++ ": precision must be between "
      ++ toString MinPrecision ++ " and " ++ toString MaxPrecision)
  else
    .ok { nodes := [{ cellID := [], values := [], children := [], parent := none,
                      isLeaveNode := false }],
          precision := precision, lookup := [] }

/-- AddValue of the v3 variant (v3/knn.go:38): validate, then walk/create
the chain of children at `cell.parent(i)` for i below the precision, the
last one tagged as leaf, and append the value there. -/
def v3AddValue {P α : Type} (g : Geo P) (s : V3State α) (id : String) (v : α)
    (lat long : ℚ) : Except (String × V3State α) (V3State α) :=
  if long < -180 ∨ long > 180 ∨ lat < -90 ∨ lat > 90 then
    .error (panicMsg lat long, s)
  else
    let cellID := g.cellAt lat long
    let pr := (List.range s.precision.toNat).foldl
      (fun (pr : Nat × V3State α) i =>
        v3GetOrCreateChild pr.2 pr.1 (cellID.take i) (s.precision - 1 = (i : Int)))
      (0, s)
    let s1 := v3SetNodeF pr.2 pr.1 (fun n => { n with values := n.values ++ [⟨id, v, cellID⟩] })
    .ok { s1 with lookup := lookupSet s1.lookup id pr.1 }

/-- Removal of the first child with a given cellID, as v3's
Node.RemoveChild does. -/
def v3RemoveFirstChild {α : Type} (s : V3State α) : List Nat → Cell → List Nat
  | [], _ => []
  | j :: rest, c => if (v3GetNode s j).cellID == c then rest else j :: v3RemoveFirstChild s rest c

/-- Node.RemoveChild of the v3 variant. -/
def v3RemoveChild {α : Type} (s : V3State α) (nid : Nat) (c : Cell) : V3State α :=
  v3SetNodeF s nid (fun n => { n with children := v3RemoveFirstChild s n.children c })

/-- Loop body of v3's Node.Prune over the snapshot of a node's children,
abstracted over the recursive prune at the remaining fuel: meeting a leaf
child returns whether the *parent's own* values are empty; otherwise the
child is pruned recursively and removed when its result is true; after the
loop the node reports whether its children list is now empty. -/
def v3PruneLoopWith {α : Type} (pruneF : V3State α → Nat → Bool × V3State α) :
    V3State α → Nat → List Nat → Bool × V3State α
  | s, nid, [] => ((v3GetNode s nid).children.isEmpty, s)
  | s, nid, c :: rest =>
    if (v3GetNode s c).isLeaveNode then ((v3GetNode s nid).values.isEmpty, s)
    else
      let pr := pruneF s c
      let s2 := if pr.1 then v3RemoveChild pr.2 nid (v3GetNode pr.2 c).cellID else pr.2
      v3PruneLoopWith pruneF s2 nid rest

/-- Node.Prune of src/node.go (the variant v3's KNN.Prune runs on its
root). -/
def v3NodePrune {α : Type} : Nat → V3State α → Nat → Bool × V3State α
  | 0, s, _ => (false, s)
  | fuel+1, s, nid => v3PruneLoopWith (v3NodePrune fuel) s nid (v3GetNode s nid).children

/-- KNN.Prune of v3/knn.go:176: prune the root under the exclusive prune
lock (locks are not part of the sequential model). -/
def v3KnnPrune {α : Type} (s : V3State α) : V3State α :=
  (v3NodePrune s.nodes.length s 0).2

/-- List of the values in the subtree of a v3 node, with a fuel cut-off. -/
def v3SubtreeVals {α : Type} (s : V3State α) : Nat → Nat → List (Val α)
  | 0, _ => []
  | fuel+1, nid =>
    (v3GetNode s nid).values ++
      ((v3GetNode s nid).children.map (fun c => v3SubtreeVals s fuel c)).flatten

/-- Values stored in a v3 index (reachable from the root). -/
def v3StoredVals {α : Type} (s : V3State α) : List (Val α) :=
  v3SubtreeVals s s.nodes.length 0

/-- Concrete v3 scenario: precision 2, one value.  The chain below the root
is an inner node at the sentinel cell and a leaf holding the value. -/
def v3Build : Option (V3State Int) :=
  match v3NewKNN Int 2 with
  | .error _ => none
  | .ok s =>
    match v3AddValue g0 s "k" 7 1 0 with
    | .error _ => none
    | .ok s' => some s'

/-- Fallback state for total projections of the concrete builds. -/
def fallbackS : KNNState Int := { nodes := [], precision := 0, lookup := [] }

/-- Two-value state of `buildPair`, extracted. -/
def pairS : KNNState Int := buildPair.getD fallbackS

/-- One-value state of `buildOne`, extracted. -/
def oneS : KNNState Int := buildOne.getD fallbackS

/-- Fallback state for the v3 projections. -/
def v3FallbackS : V3State Int := { nodes := [], precision := 0, lookup := [] }

/-- One-value v3 state of `v3Build`, extracted. -/
def v3S : V3State Int := v3Build.getD v3FallbackS

/-- Fresh empty index at precision 1, used by witnesses. -/
def emptyS : KNNState Int :=
  { nodes := [{ cellID := [], values := [], children := [], parent := none, maxIndexDepth := 1 }],
    precision := 1, lookup := [] }

/-- Lemma: the two verbatim copies of the search loop agree. -/
theorem searchLoopA_eq_searchLoop {α : Type} (s : KNNState α) (d : Cell → ℚ)
    (ctx : Nat → Bool) (cb : Val α → Bool) :
    ∀ fuel it q acc, searchLoopA s d ctx cb fuel it q acc = searchLoop s d ctx cb fuel it q acc := by
  intro fuel
  induction fuel with
  | zero => intro it q acc; rfl
  | succ f ih =>
    intro it q acc
    simp only [searchLoopA, searchLoop]
    split
    · rfl
    · cases hq : pqPop q with
      | none => rfl
      | some pr =>
        obtain ⟨⟨item, p⟩, rest⟩ := pr
        cases item with
        | inl nid =>
          simp only
          split <;> exact ih ..
        | inr w =>
          simp only
          split
          · rfl
          · exact ih ..

/-- Lemma: the search loop only ever appends to the reversed accumulator. -/
theorem searchLoop_acc_extends {α : Type} (s : KNNState α) (d : Cell → ℚ)
    (ctx : Nat → Bool) (cb : Val α → Bool) :
    ∀ fuel it q acc l, searchLoop s d ctx cb fuel it q acc = some l →
      ∃ t, l = acc.reverse ++ t := by
  intro fuel
  induction fuel with
  | zero => intro it q acc l h; exact absurd h (by simp [searchLoop])
  | succ f ih =>
    intro it q acc l h
    rw [searchLoop] at h
    by_cases hctx : ctx it
    · rw [if_pos hctx] at h
      exact ⟨[], by simpa using (Option.some.inj h).symm⟩
    · rw [if_neg hctx] at h
      cases hq : pqPop q with
      | none =>
        rw [hq] at h
        exact ⟨[], by simpa using (Option.some.inj h).symm⟩
      | some pr =>
        rw [hq] at h
        obtain ⟨⟨item, p⟩, rest⟩ := pr
        dsimp only at h
        cases item with
        | inl nid =>
          dsimp only at h
          by_cases hc : (getNode s nid).children = []
          · rw [if_pos hc] at h
            exact ih _ _ _ _ h
          · rw [if_neg hc] at h
            exact ih _ _ _ _ h
        | inr w =>
          dsimp only at h
          by_cases hcb : cb w
          · rw [if_pos hcb] at h
            exact ⟨[w], by simpa using (Option.some.inj h).symm⟩
          · rw [if_neg hcb] at h
            obtain ⟨t, ht⟩ := ih _ _ _ _ h
            exact ⟨w :: t, by simpa using ht⟩

/-- Lemma: a run under any cancellation flag is an initial segment of the
run that is never canceled (same fuel, same queue). -/
theorem searchLoop_truncation {α : Type} (s : KNNState α) (d : Cell → ℚ)
    (ctx : Nat → Bool) (cb : Val α → Bool) :
    ∀ fuel it q acc l L, searchLoop s d ctx cb fuel it q acc = some l →
      searchLoop s d (fun _ => false) cb fuel it q acc = some L →
      ∃ t, L = l ++ t := by
  intro fuel
  induction fuel with
  | zero => intro it q acc l L h _; exact absurd h (by simp [searchLoop])
  | succ f ih =>
    intro it q acc l L h hU
    rw [searchLoop] at h
    by_cases hctx : ctx it
    · rw [if_pos hctx] at h
      obtain ⟨t, ht⟩ := searchLoop_acc_extends s d (fun _ => false) cb (f+1) it q acc L hU
      exact ⟨t, by rw [ht, ← Option.some.inj h]⟩
    · rw [if_neg hctx] at h
      rw [searchLoop, if_neg (by simp)] at hU
      cases hq : pqPop q with
      | none =>
        rw [hq] at h; rw [hq] at hU
        exact ⟨[], by rw [← Option.some.inj h, ← Option.some.inj hU, List.append_nil]⟩
      | some pr =>
        rw [hq] at h; rw [hq] at hU
        obtain ⟨⟨item, p⟩, rest⟩ := pr
        dsimp only at h; dsimp only at hU
        cases item with
        | inl nid =>
          dsimp only at h; dsimp only at hU
          by_cases hc : (getNode s nid).children = []
          · rw [if_pos hc] at h; rw [if_pos hc] at hU
            exact ih _ _ _ _ _ h hU
          · rw [if_neg hc] at h; rw [if_neg hc] at hU
            exact ih _ _ _ _ _ h hU
        | inr w =>
          dsimp only at h; dsimp only at hU
          by_cases hcb : cb w
          · rw [if_pos hcb] at h; rw [if_pos hcb] at hU
            exact ⟨[], by rw [← Option.some.inj h, ← Option.some.inj hU, List.append_nil]⟩
          · rw [if_neg hcb] at h; rw [if_neg hcb] at hU
            exact ih _ _ _ _ _ h hU

/-- C5: `Search` and `SearchApproximate` of the top-level variant perform
the same computation: for every geometry, fuel, cancellation flag, state,
focal point and callback the two return identical emission sequences — the
two source functions are line-for-line identical, both pushing individual
values into the queue when a leaf is popped. -/
theorem searchApproximate_eq_search {P α : Type} (g : Geo P) (fuel : Nat)
    (ctx : Nat → Bool) (s : KNNState α) (lat long : ℚ) (cb : Val α → Bool) :
    knnSearchApproximate g fuel ctx s lat long cb = knnSearch g fuel ctx s lat long cb :=
  searchLoopA_eq_searchLoop s _ ctx cb fuel 0 _ []

/-- C6: counter-evaluation.  In the v3 variant (the only one whose KNN has a
Prune), pruning the index that still stores the value "k" discards the whole
subtree holding it: the stored values drop from ["k"] to [] and the root is
left with no children.  The adaptive variant's Node.Prune instead
dereferences the nil parent when run on a root that has children (the
`buildSplit` index), modelled by `none`. -/
theorem prune_discards_populated_subtree :
    v3Build = some v3S ∧
    (v3StoredVals v3S).map (fun w => w.key) = ["k"] ∧
    v3StoredVals (v3KnnPrune v3S) = [] ∧
    (v3GetNode (v3KnnPrune v3S) 0).children = [] ∧
    buildSplit.bind (fun s => nodePruneAdaptive s 0) = none :=
  ⟨rfl, rfl, rfl, rfl, rfl⟩

/-- C7: UpsertValue never reaches any of its branches.  Its lookup read is
guarded by lookupMutex.RLock released through Unlock instead of RUnlock
(knn.go:81-83); Unlock on a read-locked RWMutex is an unconditional Go
runtime fatal, so every call — here on `pairS` where key "1" is present at
its unchanged location, and in general for every state and input — aborts
with 'sync: Unlock of unlocked RWMutex' before the in-place update, the
AddValue delegation, or the remove-and-re-add could run, and the index is
left untouched. -/
theorem upsert_lock_fatal_never_updates :
    buildPair = some pairS ∧
    lookupFind pairS.lookup "1" = some 0 ∧
    (getNode pairS 0).values.map (fun w => (w.key, w.cell)) =
      [("1", g0.cellAt 1 0), ("2", g0.cellAt 1 0)] ∧
    knnUpsertValue g0 100 pairS "1" 99 1 0 = some (.error (lockFatalMsg, pairS)) ∧
    (∀ (P α : Type) (g : Geo P) (fuel : Nat) (s : KNNState α) (id : String) (v : α)
      (lat long : ℚ),
      knnUpsertValue g fuel s id v lat long = some (.error (lockFatalMsg, s))) :=
  ⟨rfl, rfl, rfl, rfl, fun _ _ _ _ _ _ _ _ _ => rfl⟩

/-- C8: AddValue panics with exactly the spec's diagnostic if and only if a
coordinate is out of range (boundaries accepted), leaving the state
unchanged; UpsertValue, however, never reaches any coordinate validation:
the mismatched RLock/Unlock pair of knn.go:81-83 is an unconditional
runtime fatal, so every UpsertValue call — in-range coordinates included —
aborts with the lock diagnostic instead of the claimed coordinate check. -/
theorem addValue_validates_upsert_lock_fatal {P α : Type} (g : Geo P) (fuel : Nat)
    (s : KNNState α) (id : String) (v : α) (lat long : ℚ) :
    ((∃ m z, knnAddValue g fuel s id v lat long = some (.error (m, z))) ↔
      (lat < -90 ∨ lat > 90 ∨ long < -180 ∨ long > 180)) ∧
    ((lat < -90 ∨ lat > 90 ∨ long < -180 ∨ long > 180) →
      knnAddValue g fuel s id v lat long = some (.error (panicMsg lat long, s))) ∧
    knnUpsertValue g fuel s id v lat long = some (.error (lockFatalMsg, s)) := by
  have hcond : (long < -180 ∨ long > 180 ∨ lat < -90 ∨ lat > 90) ↔
      (lat < -90 ∨ lat > 90 ∨ long < -180 ∨ long > 180) := by tauto
  refine ⟨?_, fun h => ?_, rfl⟩
  · constructor
    · rintro ⟨m, z, hmz⟩
      by_contra hno
      rw [knnAddValue, if_neg (fun hx => hno (hcond.mp hx))] at hmz
      rcases hnv : nodeAddValue fuel s 0 id v (g.cellAt lat long) with _ | ⟨nid, s1⟩ <;>
        simp [hnv] at hmz
    · intro hr
      exact ⟨panicMsg lat long, s, by rw [knnAddValue, if_pos (hcond.mpr hr)]⟩
  · rw [knnAddValue, if_pos (hcond.mpr h)]

/-- Witness for C8 at concrete inputs: AddValue with latitude 91 aborts with
the coordinate diagnostic; UpsertValue with the perfectly valid coordinates
(1, 0) on a state holding its key still aborts with the lock fatal. -/
theorem addValue_validates_upsert_lock_fatal_witness :
    knnAddValue g0 100 emptyS "w" (5 : Int) 91 0 = some (.error (panicMsg 91 0, emptyS)) ∧
    knnUpsertValue g0 100 oneS "1" (20 : Int) 1 0 = some (.error (lockFatalMsg, oneS)) :=
  ⟨(addValue_validates_upsert_lock_fatal g0 100 emptyS "w" 5 91 0).2.1
      (Or.inr (Or.inl (by norm_num))),
   (addValue_validates_upsert_lock_fatal g0 100 oneS "1" 20 1 0).2.2⟩

/-- C9: the constructor accepts exactly the precisions 0..30 and otherwise
returns the error 'invalid precision N: precision must be between 0 and
30'. -/
theorem newKNN_precision_validation (α : Type) (p : Int) :
    ((∃ s, newKNN α p = .ok s) ↔ 0 ≤ p ∧ p ≤ 30) ∧
    (¬(0 ≤ p ∧ p ≤ 30) →
      newKNN α p = .error ("invalid precision " ++ toString p ++
        ": precision must be between 0 and 30")) := by
  have hmsg : ∀ t : String, "invalid precision " ++ t ++ ": precision must be between "
      ++ toString MinPrecision ++ " and " ++ toString MaxPrecision
      = "invalid precision " ++ t ++ ": precision must be between 0 and 30" := by
    intro t
    simp only [String.append_assoc]
    congr 2
  by_cases h : p < MinPrecision ∨ p > MaxPrecision
  · have hrange : ¬(0 ≤ p ∧ p ≤ 30) := by
      simp only [MinPrecision, MaxPrecision] at h; omega
    constructor
    · constructor
      · rintro ⟨s, hs⟩
        rw [newKNN, if_pos h] at hs
        cases hs
      · intro hc; exact absurd hc hrange
    · intro _
      rw [newKNN, if_pos h, hmsg (toString p)]
  · have hrange : 0 ≤ p ∧ p ≤ 30 := by
      simp only [MinPrecision, MaxPrecision] at h; omega
    constructor
    · exact ⟨fun _ => hrange, fun _ => ⟨_, by rw [newKNN, if_neg h]⟩⟩
    · intro hc; exact absurd hrange hc

/-- Witness for C9 at precisions 31 and 5. -/
theorem newKNN_precision_validation_witness :
    newKNN Int 31 = .error "invalid precision 31: precision must be between 0 and 30" :=
  (newKNN_precision_validation Int 31).2 (by decide)

/-- C10: both search variants check the cancellation flag at the top of each
iteration, before popping: a context canceled at call time yields a run with
no emission at all, whatever the index holds, and in general a canceled run
emits an initial segment of the run that is never canceled — nothing is
emitted past the point where the flag is seen. -/
theorem search_cancellation {P α : Type} (g : Geo P) (fuel : Nat) (ctx : Nat → Bool)
    (s : KNNState α) (lat long : ℚ) (cb : Val α → Bool) :
    (ctx 0 = true → 0 < fuel →
      knnSearch g fuel ctx s lat long cb = some [] ∧
      knnSearchApproximate g fuel ctx s lat long cb = some []) ∧
    (∀ l L, knnSearch g fuel ctx s lat long cb = some l →
      knnSearch g fuel (fun _ => false) s lat long cb = some L → ∃ t, L = l ++ t) ∧
    (∀ l L, knnSearchApproximate g fuel ctx s lat long cb = some l →
      knnSearchApproximate g fuel (fun _ => false) s lat long cb = some L →
      ∃ t, L = l ++ t) := by
  refine ⟨fun h0 hf => ?_, fun l L hl hL => ?_, fun l L hl hL => ?_⟩
  · obtain ⟨f, rfl⟩ : ∃ f, fuel = f + 1 := ⟨fuel - 1, by omega⟩
    constructor
    · rw [knnSearch, searchLoop, if_pos h0]; rfl
    · rw [knnSearchApproximate, searchLoopA, if_pos h0]; rfl
  · exact searchLoop_truncation s _ ctx cb fuel 0 _ [] l L hl hL
  · rw [knnSearchApproximate, searchLoopA_eq_searchLoop] at hl hL
    exact searchLoop_truncation s _ ctx cb fuel 0 _ [] l L hl hL

/-- Witness for C10: a pre-canceled search on a concrete index emits
nothing, and the truncation property instantiated on concrete runs. -/
theorem search_cancellation_witness :
    knnSearch g0 4 (fun _ => true) emptyS 0 0 (fun _ => false) = some [] ∧
    (∃ t, ([] : List (Val Int)) = [] ++ t) :=
  ⟨((search_cancellation g0 4 (fun _ => true) emptyS 0 0 (fun _ => false)).1 rfl
      (by norm_num)).1,
   (search_cancellation g0 4 (fun _ => true) emptyS 0 0 (fun _ => false)).2.1 [] [] rfl rfl⟩

end GoSknn

